import Mathlib

/-!
Shallow embedding of the ReadNext recommendation core
(`src/ml/inference/predictor.py`, class `BookRecommender`), with theorems
checking the natural-language specification against the code.

Python strings are modelled as Lean `String`; Python floats as `ℝ`;
a pandas DataFrame as a list of rows plus a list of column names.
-/

/-- Python exceptions raised by the predictor: `ValueError` (out-of-range
index) and `RuntimeError` (missing title column). -/
inductive PyErr where
  | valueError (msg : String)
  | runtimeError (msg : String)
deriving DecidableEq, Repr

instance exceptDecEq {ε α : Type} [DecidableEq ε] [DecidableEq α] :
    DecidableEq (Except ε α) := fun a b =>
  match a, b with
  | .ok x, .ok y => decidable_of_iff (x = y) (by simp)
  | .error x, .error y => decidable_of_iff (x = y) (by simp)
  | .ok _, .error _ => isFalse (fun h => Except.noConfusion h)
  | .error _, .ok _ => isFalse (fun h => Except.noConfusion h)

/-- Value of the "Genres" cell of a catalog row, as the Python code can
receive it: a `str`, a `list`, some other sequence (e.g. a tuple, kept with
its truthiness = nonemptiness), or a falsy non-string non-list value such as
`None`. -/
inductive GenresVal where
  | gstr (s : String)
  | glist (l : List String)
  | gseq (l : List String)
  | gnone
deriving DecidableEq, Repr

/-- One catalog row: string-valued cells keyed by column name, plus the
(possibly absent) "Genres" cell. -/
structure Row where
  fields : List (String × String)
  genres : Option GenresVal
deriving DecidableEq, Repr

/-- Model of `pandas.Series.get(col)` on a row: the cell value if the
column is present, else `none`. -/
def rowGet (r : Row) (c : String) : Option String :=
  (r.fields.find? (fun p => p.1 = c)).map (fun p => p.2)

/-- The catalog DataFrame `cat_data`: rows in dataset order (the dense
0-based index) and the column names. -/
structure Catalog where
  rows : List Row
  cols : List String
deriving DecidableEq, Repr

/-- DataFrame well-formedness: every row carries exactly the table's
columns. -/
def Catalog.Coherent (cat : Catalog) : Prop :=
  ∀ row ∈ cat.rows, row.fields.map Prod.fst = cat.cols

instance (cat : Catalog) : Decidable cat.Coherent :=
  List.decidableBAll _ cat.rows

/-- A book record as returned by `get_book_by_index`. -/
structure Book where
  index : Int
  title : String
  author : String
  description : String
  genres : List String
deriving DecidableEq, Repr

/-- Model of Python `str.strip()`: drop whitespace from both ends. -/
def pyStrip (s : String) : String :=
  ⟨((s.data.dropWhile Char.isWhitespace).reverse.dropWhile Char.isWhitespace).reverse⟩

/-- Model of Python `str.lower()`. -/
def pyLower (s : String) : String :=
  ⟨s.data.map Char.toLower⟩

/-- Split a character list on a separator; the result always has one more
part than there are separators, so the empty input yields `[[]]`. -/
def splitOnChar (sep : Char) : List Char → List (List Char)
  | [] => [[]]
  | c :: cs =>
    if c = sep then [] :: splitOnChar sep cs
    else
      match splitOnChar sep cs with
      | [] => [[c]]
      | p :: ps => (c :: p) :: ps

/-- Model of Python `s.split(",")`: in particular `"".split(",") == [""]`. -/
def pySplitComma (s : String) : List String :=
  (splitOnChar ',' s.data).map (fun l => ⟨l⟩)

/-- Genre normalization, the body of `get_book_by_index` lines 129-134:
a string is split on "," and each part stripped (note `"".split(",")`
is `[""]` in Python, so an empty string yields `[""]`); a list is kept;
another sequence is converted with `list(...)` if truthy (nonempty),
else replaced by `[]`; a falsy non-sequence (`None`, or an absent cell,
whose `row.get` default `[]` is already a list) yields `[]`. -/
def normalizeGenres : Option GenresVal → List String
  | none => []
  | some (.gstr s) => (pySplitComma s).map pyStrip
  | some (.glist l) => l
  | some (.gseq l) => if l.isEmpty then [] else l
  | some .gnone => []

/-- A row with no cells, used as the (unreachable) default for guarded
positional lookups. -/
def dummyRow : Row := ⟨[], none⟩

/-- The embedded recommender state: catalog, embedding matrix and cluster
labels, as loaded by `_load_data` / `_load_model`. -/
structure Recommender where
  cat_data : Catalog
  embeddings : List (List ℝ)
  cluster_labels : List Int

/-- Catalog size `len(self.cat_data)`. -/
def Recommender.n (rec : Recommender) : Nat := rec.cat_data.rows.length

/-- Loaded-state consistency: the three parallel stores have equal length.
The spec states this as the load-time invariant. -/
def Recommender.Wf (rec : Recommender) : Prop :=
  rec.embeddings.length = rec.n ∧ rec.cluster_labels.length = rec.n

/-- Body of `get_book_by_index` for an in-range position: materialize the
book dict from row `i`, with `row.get("Book", row.get("Title", "Unknown"))`
as the title and the defaults of lines 136-142. -/
def mkBook (rec : Recommender) (i : Nat) : Book :=
  let row := rec.cat_data.rows.getD i dummyRow
  { index := (i : Int)
    title := (rowGet row "Book").getD ((rowGet row "Title").getD "Unknown")
    author := (rowGet row "Author").getD "Unknown"
    description := (rowGet row "Description").getD ""
    genres := normalizeGenres row.genres }

/-- `BookRecommender.get_book_by_index`: bounds check (`ValueError` when
`index` is outside `[0, N)`), then the row materialization. -/
def get_book_by_index (rec : Recommender) (index : Int) : Except PyErr Book :=
  if 0 ≤ index ∧ index < (rec.n : Int) then
    .ok (mkBook rec index.toNat)
  else
    .error (.valueError "Book index out of range")

/-- Prefix match of a pattern against a text, where `.` in the pattern
matches any character and every other character matches literally. This
models `re`-matching for the fragment of patterns whose only
metacharacter is `.` — the fragment used by the theorems below. -/
def reMatchAt : List Char → List Char → Bool
  | [], _ => true
  | _ :: _, [] => false
  | p :: ps, c :: cs => (p = '.' || p = c) && reMatchAt ps cs

/-- Model of `re.search` (as used by `pandas.Series.str.contains` with its
default `regex=True`): the pattern matches at some position of the text. -/
def reSearch (pat : List Char) : List Char → Bool
  | [] => reMatchAt pat []
  | c :: cs => reMatchAt pat (c :: cs) || reSearch pat cs

/-- Literal prefix match: every pattern character matches itself. -/
def litMatchAt : List Char → List Char → Bool
  | [], _ => true
  | _ :: _, [] => false
  | p :: ps, c :: cs => (p = c) && litMatchAt ps cs

/-- Literal substring containment: the needle occurs contiguously in the
haystack. This is the spec-side notion of "contains as a substring",
for comparison with the code's regex-based `reSearch`. -/
def substrB (pat : List Char) : List Char → Bool
  | [] => litMatchAt pat []
  | c :: cs => (litMatchAt pat (c :: cs)) || substrB pat cs

/-- Regex metacharacters of Python `re`; a query containing none of these
is matched literally by `re.search`. -/
def reMeta : List Char := ['.', '^', '$', '*', '+', '?', '{', '}', '[', ']', '\\', '|', '(', ')']

/-- A pattern free of regex metacharacters. -/
def metacharFree (pat : List Char) : Prop := ∀ c ∈ pat, c ∉ reMeta

instance (pat : List Char) : Decidable (metacharFree pat) :=
  List.decidableBAll _ pat

/-- The mask of `search_books` line 171 for one row: lowercased title
matched against the query by `re.search` semantics; a missing title cell
counts as no match (`na=False`). -/
def rowTitleHit (row : Row) (tcol : String) (qdata : List Char) : Bool :=
  match rowGet row tcol with
  | some t => reSearch qdata (pyLower t).data
  | none => false

/-- Spec-side variant of `rowTitleHit` with literal substring containment
instead of regex search, used to state the search characterization. -/
def rowTitleSub (row : Row) (tcol : String) (qdata : List Char) : Bool :=
  match rowGet row tcol with
  | some t => substrB qdata (pyLower t).data
  | none => false

/-- The loop of `search_books` lines 160-165: the first of
`["Book", "Title", "book", "title"]` present among the catalog columns. -/
def firstTitleCol (cat : Catalog) : Option String :=
  (["Book", "Title", "book", "title"]).find? (fun c => c ∈ cat.cols)

/-- `BookRecommender.search_books`: empty/whitespace-only query short-circuits
to `[]`; otherwise the query is stripped and lowercased, the title column
resolved (`RuntimeError` when absent), rows whose lowercased title matches
the query (pandas `str.contains`, regex semantics, `na=False`) are kept in
dataset order, truncated to `limit`, and materialized via
`get_book_by_index`'s body. -/
def search_books (rec : Recommender) (query : String) (limit : Nat) : Except PyErr (List Book) :=
  if pyStrip query = "" then .ok []
  else
    let q := pyLower (pyStrip query)
    match firstTitleCol rec.cat_data with
    | none => .error (.runtimeError "Could not find title column in book data")
    | some tcol =>
      let matching := (List.range rec.n).filter (fun i =>
        rowTitleHit (rec.cat_data.rows.getD i dummyRow) tcol q.data)
      .ok ((matching.take limit).map (fun i => mkBook rec i))

/-- Dot product of two vectors (`numpy` inner product; vectors of equal
length in the program, truncating on a mismatch). -/
def dot : List ℝ → List ℝ → ℝ
  | [], _ => 0
  | _, [] => 0
  | a :: as, b :: bs => a * b + dot as bs

/-- Cosine distance as used by scikit-learn's `metric="cosine"`:
`1 - (a·b)/(‖a‖‖b‖)`. -/
noncomputable def cosDist (a b : List ℝ) : ℝ :=
  1 - dot a b / (Real.sqrt (dot a a) * Real.sqrt (dot b b))

/-- Python `round(x, 4)`: x rounded to the nearest multiple of `1/10000`
(idealized; exact halfway ties are immaterial to every claim below). -/
noncomputable def round4 (x : ℝ) : ℝ := (round (x * 10000) : ℤ) / 10000

/-- Candidate order used by `kneighbors`: ascending cosine distance. -/
def distLE (p q : Nat × ℝ) : Prop := p.2 ≤ q.2

noncomputable instance : DecidableRel distLE :=
  fun p q => Real.decidableLE p.2 q.2

instance : IsTotal (Nat × ℝ) distLE := ⟨fun a b => le_total a.2 b.2⟩

instance : IsTrans (Nat × ℝ) distLE := ⟨fun _ _ _ h1 h2 => le_trans h1 h2⟩

/-- Lines 213-214: `np.where(self.cluster_labels == cluster_id)[0]`
followed by removal of the source index — the same-cluster candidate
indices, in ascending order. -/
def sameClusterIndices (labels : List Int) (cid : Int) (src : Nat) : List Nat :=
  (((List.range labels.length).filter (fun i => labels.getD i 0 = cid)).filter
    (fun i => i ≠ src))

/-- Lines 219-234: fit brute-force nearest neighbors on the candidate
embeddings and query the source embedding — equivalently, sort the
candidates by ascending cosine distance to the source (stably, so exact
ties keep ascending candidate order) and keep the first `n`. -/
noncomputable def knnSelect (emb : List (List ℝ)) (src : Nat) (cands : List Nat)
    (n : Nat) : List (Nat × ℝ) :=
  (List.insertionSort distLE
    (cands.map (fun c => (c, cosDist (emb.getD src []) (emb.getD c []))))).take n

/-- A recommendation: a book dict with the `similarity_score` key attached
(line 241). -/
structure RecBook where
  book : Book
  similarity_score : ℝ

/-- `BookRecommender.get_recommendations`: bounds check, source book,
same-cluster candidates, early `(source_book, [])` on an empty candidate
set, otherwise the `min(top_k, |candidates|)` nearest candidates by cosine
distance, each materialized via `get_book_by_index`'s body with
`similarity_score = round(1 - distance, 4)`. When the candidate set is
nonempty but `n_neighbors = min(top_k, |candidates|)` is 0 (i.e.
`top_k = 0`), scikit-learn's parameter validation rejects
`NearestNeighbors(n_neighbors=0)` with a `ValueError`, modelled here as
an error branch. -/
noncomputable def get_recommendations (rec : Recommender) (book_index : Int)
    (top_k : Nat) : Except PyErr (Book × List RecBook) :=
  if 0 ≤ book_index ∧ book_index < (rec.n : Int) then
    let src := book_index.toNat
    let source_book := mkBook rec src
    let cluster_id := rec.cluster_labels.getD src 0
    let cands := sameClusterIndices rec.cluster_labels cluster_id src
    if cands.length = 0 then .ok (source_book, [])
    else
      let n_neighbors := min top_k cands.length
      if n_neighbors = 0 then .error (.valueError "Expected n_neighbors > 0")
      else
        let neighbors := knnSelect rec.embeddings src cands n_neighbors
        .ok (source_book, neighbors.map (fun p =>
          { book := mkBook rec p.1, similarity_score := round4 (1 - p.2) }))
  else .error (.valueError "Book index out of range")

/-- The module-level legacy function `recommend_books` (lines 266-279):
delegates to `get_recommendations` and returns the recommended indices and
`1 - similarity_score` as distances. -/
noncomputable def recommend_books (rec : Recommender) (book_idx : Int)
    (top_k : Nat) : Except PyErr (List Int × List ℝ) :=
  match get_recommendations rec book_idx top_k with
  | .error e => .error e
  | .ok (_, recommendations) =>
    .ok (recommendations.map (fun r => r.book.index),
         recommendations.map (fun r => 1 - r.similarity_score))

/-- Number of catalog indices sharing index `i`'s cluster label (the
spec's `cluster_population(i)`). -/
def clusterPop (rec : Recommender) (i : Nat) : Nat :=
  (((List.range rec.n).filter
    (fun j => rec.cluster_labels.getD j 0 = rec.cluster_labels.getD i 0))).length

/-- `BookRecommender._load_model` lines 95-107: unpack `embeddings` and
`cluster_labels` from the model package, then the one consistency check the
code performs: `len(self.embeddings) != len(self.cat_data)` raises
`RuntimeError`. -/
def load_model (cat_data : Catalog) (embeddings : List (List ℝ))
    (cluster_labels : List Int) : Except PyErr Recommender :=
  if embeddings.length ≠ cat_data.rows.length then
    .error (.runtimeError "Data mismatch")
  else
    .ok { cat_data := cat_data, embeddings := embeddings, cluster_labels := cluster_labels }

/-! ### Concrete instances used by witnesses and counterexamples -/

/-- A two-book catalog. -/
def cat1 : Catalog :=
  { rows := [⟨[("Book", "Alpha"), ("Author", "A1"), ("Description", "d1")], none⟩,
             ⟨[("Book", "Beta"), ("Author", "A2"), ("Description", "d2")], none⟩],
    cols := ["Book", "Author", "Description"] }

/-- A two-book recommender whose one-dimensional embeddings point in
opposite directions, both books in cluster 0. -/
noncomputable def M1 : Recommender :=
  { cat_data := cat1, embeddings := [[1], [-1]], cluster_labels := [0, 0] }

/-- A one-book catalog with title "abc". -/
def cat5 : Catalog :=
  { rows := [⟨[("Book", "abc"), ("Author", "A"), ("Description", "")], none⟩],
    cols := ["Book", "Author", "Description"] }

/-- Recommender over `cat5` (embeddings irrelevant to search). -/
def R5 : Recommender := { cat_data := cat5, embeddings := [], cluster_labels := [] }

/-- A one-book catalog whose "Genres" cell is the empty string. -/
def cat7 : Catalog :=
  { rows := [⟨[("Book", "Gamma"), ("Author", "A")], some (.gstr "")⟩],
    cols := ["Book", "Author"] }

/-- Recommender over `cat7`. -/
def R7 : Recommender := { cat_data := cat7, embeddings := [], cluster_labels := [] }

/-- A one-book catalog with no title-like column at all. -/
def cat9 : Catalog := { rows := [⟨[("X", "v")], none⟩], cols := ["X"] }

/-- Recommender over `cat9`. -/
def R9 : Recommender := { cat_data := cat9, embeddings := [], cluster_labels := [] }

/-! ### Helper lemmas -/

/-- A guarded positional lookup lands in the list. -/
theorem getD_mem_of_lt {α : Type} {l : List α} {n : Nat} {d : α} (h : n < l.length) :
    l.getD n d ∈ l := by
  induction l generalizing n with
  | nil => simp at h
  | cons x xs ih =>
    cases n with
    | zero => simp
    | succ m =>
      simp only [List.getD_cons_succ]
      exact .tail _ (ih (by simpa using h))

/-- On a valid index with a positive `top_k`, `get_recommendations`
reduces to the knn selection over the same-cluster candidates (the
empty-candidate early return agrees with the general branch, and
`top_k ≥ 1` keeps `n_neighbors` positive so the scikit-learn parameter
validation cannot fire). -/
theorem get_recommendations_ok (rec : Recommender) (i : Int) (k : Nat)
    (hk : 1 ≤ k) (h0 : 0 ≤ i) (h1 : i < (rec.n : Int)) :
    get_recommendations rec i k = .ok (mkBook rec i.toNat,
      (knnSelect rec.embeddings i.toNat
          (sameClusterIndices rec.cluster_labels (rec.cluster_labels.getD i.toNat 0) i.toNat)
          (min k (sameClusterIndices rec.cluster_labels
            (rec.cluster_labels.getD i.toNat 0) i.toNat).length)).map
        (fun p => ⟨mkBook rec p.1, round4 (1 - p.2)⟩)) := by
  unfold get_recommendations
  rw [if_pos ⟨h0, h1⟩]
  by_cases hc : (sameClusterIndices rec.cluster_labels
      (rec.cluster_labels.getD i.toNat 0) i.toNat).length = 0
  · rw [List.length_eq_zero.mp hc]
    dsimp only
    rw [if_pos hc]
    simp [knnSelect]
  · have hn : ¬ (min k (sameClusterIndices rec.cluster_labels
        (rec.cluster_labels.getD i.toNat 0) i.toNat).length = 0) := by
      intro h
      rcases Nat.min_eq_zero_iff.mp h with h' | h'
      · omega
      · exact hc h'
    dsimp only
    rw [if_neg hc, if_neg hn]

/-- Inversion: whenever `get_recommendations` answers `.ok`, the source
book is the materialized row and the recommendation list is the mapped knn
selection — the error branches (invalid index, `n_neighbors = 0`) are
excluded by the hypothesis. -/
theorem get_recommendations_ok_inv {rec : Recommender} {i : Int} {k : Nat}
    {src : Book} {recs : List RecBook}
    (hok : get_recommendations rec i k = .ok (src, recs)) :
    src = mkBook rec i.toNat ∧
    recs = (knnSelect rec.embeddings i.toNat
        (sameClusterIndices rec.cluster_labels (rec.cluster_labels.getD i.toNat 0) i.toNat)
        (min k (sameClusterIndices rec.cluster_labels
          (rec.cluster_labels.getD i.toNat 0) i.toNat).length)).map
      (fun p => ⟨mkBook rec p.1, round4 (1 - p.2)⟩) := by
  unfold get_recommendations at hok
  by_cases hb : 0 ≤ i ∧ i < (rec.n : Int)
  · rw [if_pos hb] at hok
    dsimp only at hok
    by_cases hc : (sameClusterIndices rec.cluster_labels
        (rec.cluster_labels.getD i.toNat 0) i.toNat).length = 0
    · rw [if_pos hc] at hok
      have hpair := Except.ok.inj hok
      injection hpair with hsrc hrecs
      refine ⟨hsrc.symm, ?_⟩
      rw [← hrecs, List.length_eq_zero.mp hc]
      simp [knnSelect]
    · rw [if_neg hc] at hok
      by_cases hn : min k (sameClusterIndices rec.cluster_labels
          (rec.cluster_labels.getD i.toNat 0) i.toNat).length = 0
      · rw [if_pos hn] at hok
        exact Except.noConfusion hok
      · rw [if_neg hn] at hok
        have hpair := Except.ok.inj hok
        exact ⟨(congrArg Prod.fst hpair).symm, (congrArg Prod.snd hpair).symm⟩
  · rw [if_neg hb] at hok
    exact Except.noConfusion hok

/-! ### C1 — load-time length validation -/

/-- C1 (amended): at load time the code checks only the embeddings/catalog
pair: `len(embeddings) != len(cat_data)` raises a fatal load error, and
whenever that pair agrees the load completes — regardless of
`len(cluster_labels)`, which is never validated. -/
theorem c1_load_length_check (cat : Catalog) (emb : List (List ℝ)) (labels : List Int) :
    (emb.length ≠ cat.rows.length →
      ∃ m, load_model cat emb labels = .error (.runtimeError m)) ∧
    (emb.length = cat.rows.length →
      load_model cat emb labels = .ok ⟨cat, emb, labels⟩) := by
  constructor
  · intro h
    exact ⟨_, by rw [load_model, if_pos h]⟩
  · intro h
    rw [load_model, if_neg (by simp [h])]

/-- C1 counterexample: with an empty `cluster_labels` against a two-row
catalog (a labels/catalog length mismatch) but matching embeddings, loading
succeeds — refuting "for every artifact pair where
`len(cluster_labels) != len(cat_data)` loading fails". -/
theorem c1_counterexample :
    ([] : List Int).length ≠ cat1.rows.length ∧
    ∃ r, load_model cat1 [[], []] [] = .ok r := by
  refine ⟨by decide, ⟨⟨cat1, [[], []], []⟩, ?_⟩⟩
  rw [load_model, if_neg (by decide)]

/-- C1 witness: a mismatched embeddings length fails; a matched one loads. -/
theorem c1_witness :
    (∃ m, load_model cat1 [[]] [] = .error (.runtimeError m)) ∧
    load_model cat1 [[], []] [0, 1] = .ok ⟨cat1, [[], []], [0, 1]⟩ :=
  ⟨(c1_load_length_check cat1 [[]] []).1 (by decide),
   (c1_load_length_check cat1 [[], []] [0, 1]).2 (by decide)⟩

/-! ### C6 — index validation and identity round-trip -/

/-- C6: for every integer index outside `[0, N)` and every `top_k`, both
`get_book_by_index` and `get_recommendations` fail with a `ValueError`
(the out-of-range client error, raised by the bounds guard before anything
else runs); for every index inside `[0, N)`, on a consistent store and
with `top_k` clamped to at least 1 (the caller's clamp — at `top_k = 0`
scikit-learn's own `n_neighbors` validation raises), neither operation
fails, and the returned book's `index` field equals the requested index. -/
theorem c6_index_validation (rec : Recommender) (i : Int) (k : Nat) :
    (¬(0 ≤ i ∧ i < (rec.n : Int)) →
      (∃ m, get_book_by_index rec i = .error (.valueError m)) ∧
      (∃ m, get_recommendations rec i k = .error (.valueError m))) ∧
    ((0 ≤ i ∧ i < (rec.n : Int)) → rec.Wf → 1 ≤ k →
      (∃ b, get_book_by_index rec i = .ok b ∧ b.index = i) ∧
      (∃ p, get_recommendations rec i k = .ok p)) := by
  constructor
  · intro h
    exact ⟨⟨_, by rw [get_book_by_index, if_neg h]⟩,
           ⟨_, by rw [get_recommendations, if_neg h]⟩⟩
  · intro h _ hk
    refine ⟨⟨mkBook rec i.toNat, by rw [get_book_by_index, if_pos h], ?_⟩,
            ⟨_, get_recommendations_ok rec i k hk h.1 h.2⟩⟩
    simp only [mkBook]
    exact Int.toNat_of_nonneg h.1

/-- C6 witness: on the concrete model `M1` (two books, consistent store),
index 5 fails both operations with `ValueError` and index 0 with
`top_k = 3` succeeds on both. -/
theorem c6_witness :
    ((∃ m, get_book_by_index M1 5 = .error (.valueError m)) ∧
     (∃ m, get_recommendations M1 5 3 = .error (.valueError m))) ∧
    ((∃ b, get_book_by_index M1 0 = .ok b ∧ b.index = 0) ∧
     (∃ p, get_recommendations M1 0 3 = .ok p)) :=
  ⟨(c6_index_validation M1 5 3).1 (by decide),
   (c6_index_validation M1 0 3).2 (by decide) ⟨by decide, by decide⟩ (by norm_num)⟩

/-! ### C7 — genre normalization -/

/-- A column absent from a row's fields resolves to `none`. -/
theorem rowGet_eq_none_of_not_mem {r : Row} {c : String}
    (h : c ∉ r.fields.map Prod.fst) : rowGet r c = none := by
  unfold rowGet
  have hf : r.fields.find? (fun p => p.1 = c) = none := by
    rw [List.find?_eq_none]
    intro p hp
    simp only [decide_eq_true_eq]
    exact fun hc => h (hc ▸ List.mem_map_of_mem Prod.fst hp)
  rw [hf]
  rfl

/-- C7 (amended): the genres field of a returned book is normalized by
case on the source cell: a string (including the empty string) yields its
comma-split parts each trimmed — so an empty string yields `[""]`, not
`[]`; a list is kept as-is; another sequence is kept when truthy
(nonempty) and becomes `[]` when empty; an absent cell or a falsy
non-string non-list value yields `[]`. -/
theorem c7_genres_normalization (rec : Recommender) (i : Int)
    (h0 : 0 ≤ i) (h1 : i < (rec.n : Int)) (b : Book)
    (hb : get_book_by_index rec i = .ok b) :
    ((rec.cat_data.rows.getD i.toNat dummyRow).genres = none → b.genres = []) ∧
    (∀ s, (rec.cat_data.rows.getD i.toNat dummyRow).genres = some (.gstr s) →
      b.genres = (pySplitComma s).map pyStrip) ∧
    (∀ l, (rec.cat_data.rows.getD i.toNat dummyRow).genres = some (.glist l) →
      b.genres = l) ∧
    (∀ l, (rec.cat_data.rows.getD i.toNat dummyRow).genres = some (.gseq l) →
      b.genres = if l.isEmpty then [] else l) ∧
    ((rec.cat_data.rows.getD i.toNat dummyRow).genres = some .gnone → b.genres = []) := by
  rw [get_book_by_index, if_pos ⟨h0, h1⟩] at hb
  have hb' : b = mkBook rec i.toNat := (Except.ok.inj hb).symm
  subst hb'
  refine ⟨fun h => ?_, fun s h => ?_, fun l h => ?_, fun l h => ?_, fun h => ?_⟩
  all_goals
    show normalizeGenres (rec.cat_data.rows.getD i.toNat dummyRow).genres = _
    rw [h]
    rfl

/-- C7 counterexample: a book whose "Genres" cell is the empty string
(a falsy value) comes back with genres `[""]`, not the empty sequence the
claim requires. -/
theorem c7_counterexample :
    (R7.cat_data.rows.getD 0 dummyRow).genres = some (.gstr "") ∧
    get_book_by_index R7 0 = .ok ⟨0, "Gamma", "A", "", [""]⟩ ∧
    ([""] : List String) ≠ [] := by decide

/-- C7 witness: the string case of the normalization, instantiated at the
empty-string genres cell of `R7`. -/
theorem c7_witness :
    (⟨0, "Gamma", "A", "", [""]⟩ : Book).genres = (pySplitComma "").map pyStrip :=
  (c7_genres_normalization R7 0 (by decide) (by decide)
    ⟨0, "Gamma", "A", "", [""]⟩ (by decide)).2.1 "" (by decide)

/-! ### C9 — missing title column -/

/-- C9 (amended): if none of "Book", "Title", "book", "title" is a catalog
column, `search_books` raises a `RuntimeError` on every call whose query is
non-empty after trimming (a whitespace-only query still returns `[]`
before the column lookup), while `get_book_by_index` succeeds on every
valid index with "Unknown" as the title. -/
theorem c9_missing_title_column (rec : Recommender)
    (hco : rec.cat_data.Coherent)
    (hmiss : ∀ c ∈ ["Book", "Title", "book", "title"], c ∉ rec.cat_data.cols) :
    (∀ q lim, pyStrip q ≠ "" →
      ∃ m, search_books rec q lim = .error (.runtimeError m)) ∧
    (∀ i : Int, 0 ≤ i → i < (rec.n : Int) →
      ∃ b, get_book_by_index rec i = .ok b ∧ b.title = "Unknown") := by
  have hft : firstTitleCol rec.cat_data = none := by
    rw [firstTitleCol, List.find?_eq_none]
    intro c hc
    simp only [decide_eq_true_eq]
    exact hmiss c hc
  constructor
  · intro q lim hq
    refine ⟨"Could not find title column in book data", ?_⟩
    rw [search_books, if_neg hq]
    dsimp only
    rw [hft]
  · intro i h0 h1
    refine ⟨mkBook rec i.toNat, by rw [get_book_by_index, if_pos ⟨h0, h1⟩], ?_⟩
    have hlen : rec.cat_data.rows.length = rec.n := rfl
    have hidx : i.toNat < rec.cat_data.rows.length := by omega
    have hrow : rec.cat_data.rows.getD i.toNat dummyRow ∈ rec.cat_data.rows :=
      getD_mem_of_lt hidx
    have hcols := hco _ hrow
    have hbook : rowGet (rec.cat_data.rows.getD i.toNat dummyRow) "Book" = none := by
      apply rowGet_eq_none_of_not_mem
      rw [hcols]
      exact hmiss "Book" (by simp)
    have htitle : rowGet (rec.cat_data.rows.getD i.toNat dummyRow) "Title" = none := by
      apply rowGet_eq_none_of_not_mem
      rw [hcols]
      exact hmiss "Title" (by simp)
    show ((rowGet (rec.cat_data.rows.getD i.toNat dummyRow) "Book").getD
      ((rowGet (rec.cat_data.rows.getD i.toNat dummyRow) "Title").getD "Unknown")) = "Unknown"
    rw [hbook, htitle]
    rfl

/-- C9 counterexample: a whitespace-only query is a non-empty query, yet on
a catalog with no title column `search_books` returns `[]` without raising
— refuting "raises an error on every call with a non-empty query". -/
theorem c9_counterexample :
    (∀ c ∈ ["Book", "Title", "book", "title"], c ∉ R9.cat_data.cols) ∧
    (" " : String) ≠ "" ∧
    search_books R9 " " 10 = .ok [] := by decide

/-- C9 witness: on `R9` (only column "X"), the query "x" raises a
`RuntimeError` while the point lookup at index 0 yields title "Unknown". -/
theorem c9_witness :
    (∃ m, search_books R9 "x" 10 = .error (.runtimeError m)) ∧
    (∃ b, get_book_by_index R9 0 = .ok b ∧ b.title = "Unknown") :=
  ⟨(c9_missing_title_column R9 (by decide) (by decide)).1 "x" 10 (by decide),
   (c9_missing_title_column R9 (by decide) (by decide)).2 0 (by decide) (by decide)⟩

/-! ### C5 — search semantics -/

/-- On dot-free patterns, the regex prefix match is the literal one. -/
theorem reMatchAt_eq_lit {pat : List Char} (h : '.' ∉ pat) :
    ∀ s, reMatchAt pat s = litMatchAt pat s := by
  induction pat with
  | nil => intro s; rfl
  | cons p ps ih =>
    intro s
    have hp : p ≠ '.' := fun hpe => h (hpe ▸ List.mem_cons_self p ps)
    cases s with
    | nil => rfl
    | cons c cs =>
      have hps : '.' ∉ ps := fun hm => h (List.mem_cons_of_mem _ hm)
      simp [reMatchAt, litMatchAt, hp, ih hps]

/-- On dot-free patterns, regex search is literal substring containment. -/
theorem reSearch_eq_substr {pat : List Char} (h : '.' ∉ pat) :
    ∀ s, reSearch pat s = substrB pat s := by
  intro s
  induction s with
  | nil => exact reMatchAt_eq_lit h []
  | cons c cs ih => simp [reSearch, substrB, reMatchAt_eq_lit h, ih]

/-- On dot-free patterns, the row mask by regex equals the row mask by
substring. -/
theorem rowTitleHit_eq_sub {qdata : List Char} (h : '.' ∉ qdata)
    (row : Row) (tcol : String) :
    rowTitleHit row tcol qdata = rowTitleSub row tcol qdata := by
  unfold rowTitleHit rowTitleSub
  cases rowGet row tcol with
  | none => rfl
  | some t => exact reSearch_eq_substr h _

/-- Lowercase images determine emptiness: if two strings have the same
lowercase image, one is empty iff the other is. -/
theorem eq_empty_iff_of_pyLower_eq {s t : String} (h : pyLower s = pyLower t) :
    s = "" ↔ t = "" := by
  have hd : s.data.map Char.toLower = t.data.map Char.toLower := congrArg String.data h
  constructor
  · intro hs
    have hsd : s.data = [] := congrArg String.data hs
    rw [hsd] at hd
    exact String.ext (List.map_eq_nil_iff.mp hd.symm)
  · intro ht
    have htd : t.data = [] := congrArg String.data ht
    rw [htd] at hd
    exact String.ext (List.map_eq_nil_iff.mp hd)

/-- C5 (amended): `search_books` matches the trimmed, lowercased query
against lowercased titles with `re.search` semantics (pandas
`str.contains` default), so regex metacharacters are interpreted, not
literal. For queries free of regex metacharacters this is exactly
case-insensitive substring match: the result is the substring-matching
rows in stored dataset order truncated to `limit`; an empty or
whitespace-only query yields `[]` without error; and the result depends
on the query only through its trimmed lowercase image (case-insensitivity). -/
theorem c5_search_characterization :
    (∀ (rec : Recommender) (q : String) (lim : Nat), pyStrip q = "" →
      search_books rec q lim = .ok []) ∧
    (∀ (rec : Recommender) (q : String) (lim : Nat) (tcol : String),
      pyStrip q ≠ "" →
      firstTitleCol rec.cat_data = some tcol →
      metacharFree (pyLower (pyStrip q)).data →
      search_books rec q lim = .ok
        ((((List.range rec.n).filter (fun i =>
          rowTitleSub (rec.cat_data.rows.getD i dummyRow) tcol
            (pyLower (pyStrip q)).data)).take lim).map (fun i => mkBook rec i))) ∧
    (∀ (rec : Recommender) (q q' : String) (lim : Nat),
      pyLower (pyStrip q) = pyLower (pyStrip q') →
      search_books rec q lim = search_books rec q' lim) := by
  refine ⟨?_, ?_, ?_⟩
  · intro rec q lim hq
    rw [search_books, if_pos hq]
  · intro rec q lim tcol hq htc hm
    have hdot : '.' ∉ (pyLower (pyStrip q)).data := fun hd => hm '.' hd (by decide)
    rw [search_books, if_neg hq]
    dsimp only
    rw [htc]
    dsimp only
    rw [List.filter_congr (fun i _ =>
      rowTitleHit_eq_sub hdot (rec.cat_data.rows.getD i dummyRow) tcol)]
  · intro rec q q' lim hqq
    have hiff := eq_empty_iff_of_pyLower_eq hqq
    by_cases hq0 : pyStrip q = ""
    · rw [search_books, if_pos hq0, search_books, if_pos (hiff.mp hq0)]
    · rw [search_books, if_neg hq0, search_books, if_neg (fun h => hq0 (hiff.mpr h))]
      dsimp only
      rw [hqq]

/-- C5 counterexample: the query "a.c" is returned a match on title "abc"
although "a.c" is not a substring of "abc" — `str.contains` treats the
query as a regular expression, refuting the pure-substring reading. -/
theorem c5_counterexample :
    substrB (pyLower (pyStrip "a.c")).data (pyLower "abc").data = false ∧
    search_books R5 "a.c" 10 = .ok [⟨0, "abc", "A", "", []⟩] := by decide

/-- C5 witness: on `R5`, a whitespace query yields `[]`, the
metacharacter-free query "B" returns the substring match, and an
uppercase query equals its lowercase variant. -/
theorem c5_witness :
    search_books R5 "  " 3 = .ok [] ∧
    search_books R5 "B" 10 = .ok [⟨0, "abc", "A", "", []⟩] ∧
    search_books R5 "ABC" 5 = search_books R5 "abc" 5 :=
  ⟨c5_search_characterization.1 R5 "  " 3 (by decide),
   (c5_search_characterization.2.1 R5 "B" 10 "Book" (by decide) (by decide)
     (by decide)).trans (by decide),
   c5_search_characterization.2.2 R5 "ABC" "abc" 5 (by decide)⟩

/-! ### Helper lemmas for the recommendation path -/

/-- A dot product of a vector with itself is nonnegative. -/
theorem dot_self_nonneg (a : List ℝ) : 0 ≤ dot a a := by
  induction a with
  | nil => simp [dot]
  | cons x xs ih =>
    simp only [dot]
    nlinarith [sq_nonneg x]

/-- Cauchy-Schwarz for the list dot product. -/
theorem dot_sq_le_mul (a : List ℝ) : ∀ b, (dot a b) ^ 2 ≤ dot a a * dot b b := by
  induction a with
  | nil => intro b; simp [dot, mul_nonneg (dot_self_nonneg b) (dot_self_nonneg b)]
  | cons x xs ih =>
    intro b
    cases b with
    | nil => simp [dot, mul_nonneg (dot_self_nonneg _) (dot_self_nonneg _)]
    | cons y ys =>
      simp only [dot]
      have h := ih ys
      have hA := dot_self_nonneg xs
      have hB := dot_self_nonneg ys
      rcases eq_or_lt_of_le hB with hB0 | hBpos
      · have hABz : dot xs ys ^ 2 ≤ 0 := by nlinarith
        have hd0 : dot xs ys = 0 := by nlinarith [sq_nonneg (dot xs ys)]
        rw [hd0, ← hB0]
        nlinarith [sq_nonneg x, sq_nonneg y, mul_nonneg hA (sq_nonneg y)]
      · nlinarith [sq_nonneg (x * dot ys ys - y * dot xs ys),
          mul_nonneg (add_nonneg (sq_nonneg y) (le_of_lt hBpos)) (sub_nonneg.mpr h),
          mul_pos hBpos hBpos]

/-- The cosine similarity has absolute value at most 1 (with the
division-by-zero convention making the degenerate case 0). -/
theorem cosSim_abs_le_one (a b : List ℝ) :
    |dot a b / (Real.sqrt (dot a a) * Real.sqrt (dot b b))| ≤ 1 := by
  have hqnn : 0 ≤ Real.sqrt (dot a a) * Real.sqrt (dot b b) :=
    mul_nonneg (Real.sqrt_nonneg _) (Real.sqrt_nonneg _)
  have habs : |dot a b| ≤ Real.sqrt (dot a a) * Real.sqrt (dot b b) := by
    rw [← Real.sqrt_sq_eq_abs, ← Real.sqrt_mul (dot_self_nonneg a)]
    exact Real.sqrt_le_sqrt (dot_sq_le_mul a b)
  rcases eq_or_lt_of_le hqnn with h0 | hpos
  · have hz : dot a b = 0 := by
      have : |dot a b| ≤ 0 := le_of_le_of_eq habs h0.symm
      exact abs_eq_zero.mp (le_antisymm this (abs_nonneg _))
    rw [hz, ← h0]
    simp
  · rw [abs_div, abs_of_nonneg hqnn]
    exact div_le_one_of_le₀ habs hqnn

/-- The raw similarity `1 - cosine distance` lies in `[-1, 1]`. -/
theorem one_sub_cosDist_bounds (a b : List ℝ) :
    -1 ≤ 1 - cosDist a b ∧ 1 - cosDist a b ≤ 1 := by
  have h := cosSim_abs_le_one a b
  rw [abs_le] at h
  unfold cosDist
  constructor <;> [linarith [h.1]; linarith [h.2]]

/-- Rounding to four decimals is monotone. -/
theorem round4_mono {x y : ℝ} (h : x ≤ y) : round4 x ≤ round4 y := by
  unfold round4
  have hr : round (x * 10000) ≤ round (y * 10000) := by
    rw [round_eq, round_eq]
    exact Int.floor_le_floor (by linarith)
  have hc : ((round (x * 10000) : ℤ) : ℝ) ≤ ((round (y * 10000) : ℤ) : ℝ) :=
    Int.cast_le.mpr hr
  linarith

/-- Rounding fixes 1. -/
theorem round4_one : round4 (1 : ℝ) = 1 := by
  unfold round4
  rw [show ((1 : ℝ) * 10000) = ((10000 : ℤ) : ℝ) by norm_num, round_intCast]
  norm_num

/-- Rounding fixes -1. -/
theorem round4_neg_one : round4 (-1 : ℝ) = -1 := by
  unfold round4
  rw [show ((-1 : ℝ) * 10000) = ((-10000 : ℤ) : ℝ) by norm_num, round_intCast]
  norm_num

/-- Rounding keeps `[-1, 1]` inside `[-1, 1]`. -/
theorem round4_bounds {x : ℝ} (h1 : -1 ≤ x) (h2 : x ≤ 1) :
    -1 ≤ round4 x ∧ round4 x ≤ 1 :=
  ⟨round4_neg_one ▸ round4_mono h1, round4_one ▸ round4_mono h2⟩

/-- Membership in the same-cluster candidate list. -/
theorem mem_sameClusterIndices {labels : List Int} {cid : Int} {src i : Nat} :
    i ∈ sameClusterIndices labels cid src ↔
      i < labels.length ∧ labels.getD i 0 = cid ∧ i ≠ src := by
  unfold sameClusterIndices
  rw [List.mem_filter, List.mem_filter, List.mem_range]
  simp only [decide_eq_true_eq]
  tauto

/-- Removing one present element from a duplicate-free list shortens it by
exactly one. -/
theorem filter_ne_length {l : List Nat} (hnd : l.Nodup) {a : Nat} (ha : a ∈ l) :
    (l.filter (fun i => i ≠ a)).length + 1 = l.length := by
  induction l with
  | nil => cases ha
  | cons x xs ih =>
    have hx : x ∉ xs := (List.nodup_cons.mp hnd).1
    have hnd' := (List.nodup_cons.mp hnd).2
    rcases List.mem_cons.mp ha with h | hmem
    · subst h
      have hself : xs.filter (fun i => i ≠ a) = xs :=
        List.filter_eq_self.mpr (fun b hb => decide_eq_true (fun hbx => hx (hbx ▸ hb)))
      simp [List.filter_cons, hself]
      exact fun b hb hba => hx (hba ▸ hb)
    · have hxa : x ≠ a := fun h => hx (h ▸ hmem)
      have := ih hnd' hmem
      simp only [List.filter_cons, if_pos (decide_eq_true hxa)]
      simp only [List.length_cons]
      omega

/-- The candidate list is one shorter than the whole cluster. -/
theorem sameClusterIndices_length {labels : List Int} {src : Nat}
    (hsrc : src < labels.length) :
    (sameClusterIndices labels (labels.getD src 0) src).length + 1 =
      ((List.range labels.length).filter
        (fun j => labels.getD j 0 = labels.getD src 0)).length := by
  unfold sameClusterIndices
  apply filter_ne_length
  · exact (List.nodup_range _).filter _
  · rw [List.mem_filter]
    exact ⟨List.mem_range.mpr hsrc, by simp⟩

/-- Every selected neighbor is a candidate carrying its cosine distance to
the source embedding. -/
theorem knnSelect_mem {emb : List (List ℝ)} {src : Nat} {cands : List Nat}
    {n : Nat} {p : Nat × ℝ} (hp : p ∈ knnSelect emb src cands n) :
    p.1 ∈ cands ∧ p.2 = cosDist (emb.getD src []) (emb.getD p.1 []) := by
  unfold knnSelect at hp
  have h1 := List.mem_of_mem_take hp
  have h2 := (List.perm_insertionSort distLE _).mem_iff.mp h1
  rcases List.mem_map.mp h2 with ⟨c, hc, hpc⟩
  cases hpc
  exact ⟨hc, rfl⟩

/-- The selection length is the minimum of the request and the pool. -/
theorem knnSelect_length (emb : List (List ℝ)) (src : Nat) (cands : List Nat)
    (n : Nat) : (knnSelect emb src cands n).length = min n cands.length := by
  unfold knnSelect
  rw [List.length_take, List.length_insertionSort, List.length_map]

/-- The selection is sorted by ascending cosine distance. -/
theorem knnSelect_sorted (emb : List (List ℝ)) (src : Nat) (cands : List Nat)
    (n : Nat) : List.Pairwise distLE (knnSelect emb src cands n) := by
  unfold knnSelect
  exact List.Pairwise.sublist (List.take_sublist n _)
    (List.sorted_insertionSort distLE _)

/-- Cosine distance of opposite one-dimensional unit vectors is 2. -/
theorem cosDist_opposite : cosDist [(1 : ℝ)] [(-1 : ℝ)] = 2 := by
  unfold cosDist
  simp only [dot]
  norm_num [Real.sqrt_one]

/-- Full evaluation of `get_recommendations` on the two-book model `M1`:
the single same-cluster candidate is returned with similarity -1. -/
theorem eval_M1_rec : get_recommendations M1 0 5 =
    .ok (mkBook M1 0, [⟨mkBook M1 1, -1⟩]) := by
  rw [get_recommendations_ok M1 0 5 (by norm_num) (by norm_num) (by decide)]
  have hcands : sameClusterIndices M1.cluster_labels
      (M1.cluster_labels.getD (Int.toNat 0) 0) (Int.toNat 0) = [1] := by decide
  rw [hcands]
  have hknn : knnSelect M1.embeddings (Int.toNat 0) [1] (min 5 [1].length) =
      [(1, cosDist (M1.embeddings.getD (Int.toNat 0) []) (M1.embeddings.getD 1 []))] := by
    unfold knnSelect
    simp [List.insertionSort, List.orderedInsert]
  rw [hknn]
  simp only [List.map_cons, List.map_nil]
  rw [show M1.embeddings.getD (Int.toNat 0) [] = [(1 : ℝ)] from rfl,
    show M1.embeddings.getD 1 [] = [(-1 : ℝ)] from rfl, cosDist_opposite,
    show (1 : ℝ) - 2 = -1 by norm_num, round4_neg_one]
  rfl

/-! ### C2 — cluster restriction and self-exclusion -/

/-- C2: every recommended book shares the source book's cluster label, and
the source book itself never appears among the recommendations. -/
theorem c2_cluster_restriction (rec : Recommender) (i : Int) (k : Nat)
    (h0 : 0 ≤ i) (h1 : i < (rec.n : Int)) (src : Book) (recs : List RecBook)
    (hok : get_recommendations rec i k = .ok (src, recs)) :
    ∀ r ∈ recs,
      rec.cluster_labels.getD r.book.index.toNat 0 =
        rec.cluster_labels.getD i.toNat 0 ∧ r.book.index ≠ i := by
  have hrecs := (get_recommendations_ok_inv hok).2
  subst hrecs
  intro r hr
  rcases List.mem_map.mp hr with ⟨p, hp, hpr⟩
  rcases knnSelect_mem hp with ⟨hc, -⟩
  rcases mem_sameClusterIndices.mp hc with ⟨hlt, hlab, hne⟩
  subst hpr
  dsimp only
  have hidx : (mkBook rec p.1).index = (p.1 : Int) := rfl
  rw [hidx, Int.toNat_natCast]
  exact ⟨hlab, fun heq => hne (by omega)⟩

/-- C2 witness: on `M1`, the single recommendation for book 0 is in
cluster 0 (book 0's cluster) and is not book 0. -/
theorem c2_witness :
    M1.cluster_labels.getD
        (⟨mkBook M1 1, (-1 : ℝ)⟩ : RecBook).book.index.toNat 0 =
      M1.cluster_labels.getD (Int.toNat 0) 0 ∧
    (⟨mkBook M1 1, (-1 : ℝ)⟩ : RecBook).book.index ≠ 0 :=
  c2_cluster_restriction M1 0 5 (by norm_num) (by decide) (mkBook M1 0)
    [⟨mkBook M1 1, -1⟩] eval_M1_rec ⟨mkBook M1 1, -1⟩ (List.mem_singleton.mpr rfl)

/-! ### C3 — result length -/

/-- C3: on a consistent store and a valid index, `get_recommendations`
succeeds and returns exactly `min(top_k, cluster_population - 1)`
recommendations; in particular a singleton cluster yields the source book
with an empty list, and an oversized `top_k` is clamped, never an error. -/
theorem c3_result_length (rec : Recommender) (hwf : rec.Wf) (i : Int) (k : Nat)
    (hk : 1 ≤ k) (h0 : 0 ≤ i) (h1 : i < (rec.n : Int)) :
    ∃ recs, get_recommendations rec i k = .ok (mkBook rec i.toNat, recs) ∧
      recs.length = min k (clusterPop rec i.toNat - 1) := by
  refine ⟨_, get_recommendations_ok rec i k hk h0 h1, ?_⟩
  rw [List.length_map, knnSelect_length, min_assoc, min_self]
  have hsrc : i.toNat < rec.cluster_labels.length := by
    have h2 := hwf.2
    omega
  have hlen := sameClusterIndices_length hsrc
  have hpop : clusterPop rec i.toNat =
      ((List.range rec.cluster_labels.length).filter
        (fun j => rec.cluster_labels.getD j 0 =
          rec.cluster_labels.getD i.toNat 0)).length := by
    unfold clusterPop
    rw [hwf.2]
  have hc : (sameClusterIndices rec.cluster_labels
      (rec.cluster_labels.getD i.toNat 0) i.toNat).length =
      clusterPop rec i.toNat - 1 := by omega
  rw [hc]

/-- C3 witness: on `M1` (one two-book cluster), book 0 with `top_k = 5`
succeeds with exactly `min 5 (2 - 1) = 1` recommendation. -/
theorem c3_witness :
    ∃ recs, get_recommendations M1 0 5 = .ok (mkBook M1 (Int.toNat 0), recs) ∧
      recs.length = min 5 (clusterPop M1 (Int.toNat 0) - 1) :=
  c3_result_length M1 ⟨by decide, by decide⟩ 0 5 (by norm_num) (by norm_num) (by decide)

/-! ### C4 — similarity scores -/

/-- C4 (amended): every reported similarity score lies in `[-1, 1]` (not
`[0, 1]`: cosine similarity of arbitrary embeddings can be negative), the
recommendation list is sorted in descending score order, and each score is
`round(1 - cosine_distance(source, candidate), 4)` — the ranking is by full
precision distance, rounding touches only the reported value. -/
theorem c4_scores (rec : Recommender) (i : Int) (k : Nat)
    (h0 : 0 ≤ i) (h1 : i < (rec.n : Int)) (src : Book) (recs : List RecBook)
    (hok : get_recommendations rec i k = .ok (src, recs)) :
    (∀ r ∈ recs, -1 ≤ r.similarity_score ∧ r.similarity_score ≤ 1 ∧
      r.similarity_score = round4 (1 - cosDist (rec.embeddings.getD i.toNat [])
        (rec.embeddings.getD r.book.index.toNat []))) ∧
    List.Pairwise (fun a b : RecBook => b.similarity_score ≤ a.similarity_score)
      recs := by
  have hrecs := (get_recommendations_ok_inv hok).2
  subst hrecs
  constructor
  · intro r hr
    rcases List.mem_map.mp hr with ⟨p, hp, hpr⟩
    rcases knnSelect_mem hp with ⟨-, hd⟩
    subst hpr
    dsimp only
    have hb := one_sub_cosDist_bounds (rec.embeddings.getD i.toNat [])
      (rec.embeddings.getD p.1 [])
    have h4 := round4_bounds hb.1 hb.2
    have hidx : (mkBook rec p.1).index.toNat = p.1 := by
      show ((p.1 : Int)).toNat = p.1
      exact Int.toNat_natCast p.1
    rw [hd, hidx]
    exact ⟨h4.1, h4.2, rfl⟩
  · rw [List.pairwise_map]
    exact (knnSelect_sorted rec.embeddings i.toNat _ _).imp
      (fun hab => round4_mono (by unfold distLE at hab; linarith))

/-- C4 counterexample: on `M1` (1-dimensional opposite embeddings in one
cluster) the only recommendation carries similarity score -1, outside
`[0, 1]` — refuting the claimed lower bound 0. -/
theorem c4_counterexample :
    get_recommendations M1 0 5 = .ok (mkBook M1 0, [⟨mkBook M1 1, -1⟩]) ∧
    ¬(0 ≤ ((⟨mkBook M1 1, (-1 : ℝ)⟩ : RecBook)).similarity_score) :=
  ⟨eval_M1_rec, by norm_num⟩

/-- C4 witness: the amended score bounds, formula and descending order,
instantiated on `M1`'s one-element recommendation list. -/
theorem c4_witness :
    (∀ r ∈ [(⟨mkBook M1 1, (-1 : ℝ)⟩ : RecBook)], -1 ≤ r.similarity_score ∧
      r.similarity_score ≤ 1 ∧
      r.similarity_score = round4 (1 - cosDist (M1.embeddings.getD (Int.toNat 0) [])
        (M1.embeddings.getD r.book.index.toNat []))) ∧
    List.Pairwise (fun a b : RecBook => b.similarity_score ≤ a.similarity_score)
      [(⟨mkBook M1 1, (-1 : ℝ)⟩ : RecBook)] :=
  c4_scores M1 0 5 (by norm_num) (by decide) (mkBook M1 0)
    [⟨mkBook M1 1, -1⟩] eval_M1_rec

/-! ### C8 — record agreement across operations -/

/-- C8: the source book of `get_recommendations` is exactly
`get_book_by_index(i)`, and every recommendation's book fields are exactly
`get_book_by_index` at its own index (the score is the only addition). -/
theorem c8_record_agreement (rec : Recommender) (hwf : rec.Wf) (i : Int)
    (k : Nat) (h0 : 0 ≤ i) (h1 : i < (rec.n : Int)) (src : Book)
    (recs : List RecBook)
    (hok : get_recommendations rec i k = .ok (src, recs)) :
    get_book_by_index rec i = .ok src ∧
    ∀ r ∈ recs, get_book_by_index rec r.book.index = .ok r.book := by
  have hinv := get_recommendations_ok_inv hok
  have hsrc := hinv.1
  have hrecs := hinv.2
  subst hsrc
  subst hrecs
  constructor
  · rw [get_book_by_index, if_pos ⟨h0, h1⟩]
  · intro r hr
    rcases List.mem_map.mp hr with ⟨p, hp, hpr⟩
    rcases knnSelect_mem hp with ⟨hc, -⟩
    rcases mem_sameClusterIndices.mp hc with ⟨hlt, -, -⟩
    subst hpr
    dsimp only
    have hidx : (mkBook rec p.1).index = (p.1 : Int) := rfl
    have hpn : p.1 < rec.n := by
      have h2 := hwf.2
      omega
    rw [hidx, get_book_by_index,
      if_pos ⟨Int.natCast_nonneg p.1, by exact_mod_cast hpn⟩, Int.toNat_natCast]

/-- C8 witness: on `M1`, the source book and the single recommendation's
book both round-trip through `get_book_by_index`. -/
theorem c8_witness :
    get_book_by_index M1 0 = .ok (mkBook M1 0) ∧
    ∀ r ∈ [(⟨mkBook M1 1, (-1 : ℝ)⟩ : RecBook)],
      get_book_by_index M1 r.book.index = .ok r.book :=
  c8_record_agreement M1 ⟨by decide, by decide⟩ 0 5 (by norm_num) (by decide)
    (mkBook M1 0) [⟨mkBook M1 1, -1⟩] eval_M1_rec

/-! ### C10 — legacy wrapper equivalence -/

/-- C10: `recommend_books` returns exactly the indices of
`get_recommendations`, in order, and distances equal to one minus the
4-decimal-rounded similarity scores — so they agree with the true cosine
distances only up to the rounding of the reported score. -/
theorem c10_legacy_equivalence (rec : Recommender) (i : Int) (k : Nat)
    (h0 : 0 ≤ i) (h1 : i < (rec.n : Int)) (src : Book) (recs : List RecBook)
    (hok : get_recommendations rec i k = .ok (src, recs)) :
    recommend_books rec i k =
      .ok (recs.map (fun r => r.book.index),
           recs.map (fun r => 1 - r.similarity_score)) ∧
    ∀ r ∈ recs, 1 - r.similarity_score =
      1 - round4 (1 - cosDist (rec.embeddings.getD i.toNat [])
        (rec.embeddings.getD r.book.index.toNat [])) := by
  constructor
  · rw [recommend_books, hok]
  · have hrecs := (get_recommendations_ok_inv hok).2
    subst hrecs
    intro r hr
    rcases List.mem_map.mp hr with ⟨p, hp, hpr⟩
    rcases knnSelect_mem hp with ⟨-, hd⟩
    subst hpr
    dsimp only
    have hidx : (mkBook rec p.1).index.toNat = p.1 := by
      show ((p.1 : Int)).toNat = p.1
      exact Int.toNat_natCast p.1
    rw [hd, hidx]

/-- C10 witness: the wrapper evaluated on `M1` agrees with the method's
indices and rounded-score distances. -/
theorem c10_witness :
    recommend_books M1 0 5 =
      .ok ([(⟨mkBook M1 1, (-1 : ℝ)⟩ : RecBook)].map (fun r => r.book.index),
           [(⟨mkBook M1 1, (-1 : ℝ)⟩ : RecBook)].map (fun r => 1 - r.similarity_score)) ∧
    ∀ r ∈ [(⟨mkBook M1 1, (-1 : ℝ)⟩ : RecBook)], 1 - r.similarity_score =
      1 - round4 (1 - cosDist (M1.embeddings.getD (Int.toNat 0) [])
        (M1.embeddings.getD r.book.index.toNat [])) :=
  c10_legacy_equivalence M1 0 5 (by norm_num) (by decide) (mkBook M1 0)
    [⟨mkBook M1 1, -1⟩] eval_M1_rec
